import Mathlib

/-!
Verification of the threejs-fireflies repository: the `FireFlies` instanced
particle manager (src/FireFly.ts) and the `FireFlyMaterial` glow shader
material (src/FireFlyMaterial.ts).

Shallow embedding conventions:
  - JavaScript numbers used in shader math and uniform state are embedded as
    real numbers (`ℝ`); GLSL builtins (`length`, `clamp`, `smoothstep`, `mix`)
    are defined from their GLSL specification, which is the exact arithmetic
    the shaders perform.
  - `Math.random()` output streams are embedded as sequences of rationals in
    [0,1), so that the draw loops of `randomGaussian` stay decidable; the
    Box-Muller arithmetic on a drawn sample is over `ℝ`.
  - Mutable objects (`this.Uniforms`, the material's `uniforms`) become
    explicit state records; a mutating method becomes a function from state
    to state.
  - The instanced-mesh transform writes performed by `setInitialPositions`
    are recorded as the list of `(index, translation)` pairs passed to
    `setMatrixAt`, in execution order (only the translation of the matrix is
    ever set, via `matrix.setPosition`).
-/

namespace ThreeFireflies

/-- Embeds three.js `Vector3` / GLSL `vec3` (also used for `Color` RGB
triples, whose components copy componentwise just like `Vector3`). -/
structure V3 where
  x : ℝ
  y : ℝ
  z : ℝ

/-- `Vector3.add`: componentwise addition, used by
`position.copy(groupCenter).add(offset)` in `setInitialPositions`. -/
noncomputable def V3.add (a b : V3) : V3 :=
  ⟨a.x + b.x, a.y + b.y, a.z + b.z⟩

/-! ## GLSL builtins (from the GLSL ES specification, as used by the
fragment shader of FireFlyMaterial.ts lines 48-69 and FireFly.ts 100-124) -/

/-- GLSL `length` of a 2-vector: Euclidean norm. -/
noncomputable def glslLength (x y : ℝ) : ℝ := Real.sqrt (x * x + y * y)

/-- GLSL `clamp(x, lo, hi) = min(max(x, lo), hi)`. -/
noncomputable def glslClamp (x lo hi : ℝ) : ℝ := min (max x lo) hi

/-- The interpolation divisor of GLSL `smoothstep(e0, e1, x)`:
the `t` parameter is `clamp((x - e0) / (e1 - e0), 0, 1)`, so the division
is by `e1 - e0`; the edges are distinct exactly when this is nonzero. -/
noncomputable def smoothstepDivisor (e0 e1 : ℝ) : ℝ := e1 - e0

/-- GLSL `smoothstep(e0, e1, x)`: Hermite interpolation
`t*t*(3 - 2*t)` of `t = clamp((x - e0)/(e1 - e0), 0, 1)`. -/
noncomputable def smoothstep (e0 e1 x : ℝ) : ℝ :=
  let t := glslClamp ((x - e0) / (smoothstepDivisor e0 e1)) 0 1
  t * t * (3 - 2 * t)

/-- GLSL `mix(a, b, t) = a*(1 - t) + b*t`. -/
noncomputable def glslMix (a b t : ℝ) : ℝ := a * (1 - t) + b * t

/-! ## The fragment shader -/

/-- The fragment shader of FireFlyMaterial.ts (lines 48-69; identical text in
FireFly.ts lines 100-124 and in the second FireFlyMaterial draft), translated
statement by statement.  Inputs are the interpolated UV `vUv`, the uniforms
`uFireFlyRadius`, `uTime`, `uColor`, and the per-instance varying `vOffset`.
The result is the pair written to `gl_FragColor`: the RGB `finalColor`
and the fourth channel `alpha`. -/
noncomputable def fragmentShaderCode (vUv : ℝ × ℝ) (uFireFlyRadius uTime : ℝ)
    (uColor : V3) (vOffset : ℝ) : V3 × ℝ :=
  let distance := glslLength (vUv.1 - 0.5) (vUv.2 - 0.5)
  let glow := smoothstep 0.50 uFireFlyRadius distance
  let disk := smoothstep uFireFlyRadius (uFireFlyRadius - 0.01) distance
  let flash := Real.sin (uTime * 3 + vOffset * 0.12) * 0.5 + 0.5
  let alpha := glslClamp ((glow + disk) * flash) 0 1
  let glowColor : V3 := ⟨uColor.x * 3 * flash, uColor.y * 3 * flash, uColor.z * 3 * flash⟩
  let fireFlyColor : V3 := ⟨uColor.x * 3, uColor.y * 3, uColor.z * 3⟩
  let finalColor : V3 :=
    ⟨glslMix glowColor.x fireFlyColor.x disk,
     glslMix glowColor.y fireFlyColor.y disk,
     glslMix glowColor.z fireFlyColor.z disk⟩
  (finalColor, alpha)

/-- The fragment computation as the specification states it, in one shot:
`distance = |uv - (0.5,0.5)|` (Euclidean), `glow = smoothstep(0.50, r, distance)`,
`disk = smoothstep(r, r-0.01, distance)`, `flash = 0.5 + 0.5*sin(3t + 0.12k)`,
`alpha = clamp((glow + disk)*flash, 0, 1)`,
`color = mix(c*3*flash, c*3, disk)`, output `(color, alpha)`. -/
noncomputable def fragmentShaderSpec (uv : ℝ × ℝ) (r t : ℝ) (c : V3) (k : ℝ) : V3 × ℝ :=
  let distance := Real.sqrt ((uv.1 - 0.5) * (uv.1 - 0.5) + (uv.2 - 0.5) * (uv.2 - 0.5))
  let glow := smoothstep 0.50 r distance
  let disk := smoothstep r (r - 0.01) distance
  let flash := 0.5 + 0.5 * Real.sin (3 * t + 0.12 * k)
  let alpha := glslClamp ((glow + disk) * flash) 0 1
  (⟨glslMix (c.x * 3 * flash) (c.x * 3) disk,
    glslMix (c.y * 3 * flash) (c.y * 3) disk,
    glslMix (c.z * 3 * flash) (c.z * 3) disk⟩, alpha)

/-! ## FireFlyMaterial uniform state and setters -/

/-- The uniform state of `FireFlyMaterial` (FireFlyMaterial.ts lines 12-17):
`uTime`, `uFireFlyRadius`, `uColor`, and the noise-texture slot
(`none` = the initial null / default texture, `some id` = an assigned
texture handle). -/
structure FireFlyMaterialState where
  uTime : ℝ
  uFireFlyRadius : ℝ
  uColor : V3
  uNoiseTexture : Option ℕ

/-- `FireFlyMaterial.setColor(color)` (FireFlyMaterial.ts lines 93-95 and
200-202): `this.uniforms.uColor.value.copy(color)` — copies the RGB
components of `color` into the color uniform, no transformation. -/
def setColor (color : V3) (s : FireFlyMaterialState) : FireFlyMaterialState :=
  ⟨s.uTime, s.uFireFlyRadius, color, s.uNoiseTexture⟩

/-- `FireFlyMaterial.setFireFlyRadius(radius)` (FireFlyMaterial.ts lines
101-103 and 208-210): `this.uniforms.uFireFlyRadius.value = radius` —
stores the argument unconditionally, with no validation. -/
def setFireFlyRadius (radius : ℝ) (s : FireFlyMaterialState) : FireFlyMaterialState :=
  ⟨s.uTime, radius, s.uColor, s.uNoiseTexture⟩

/-! ## FireFlies manager state, construction field assignment, update -/

/-- The mutable state of a `FireFlies` instance (FireFly.ts lines 33-46):
the shared uniform objects and the instanced-mesh transform store.
`matrices` records the `(index, translation)` writes made through
`setMatrixAt`. (The `uTime` uniform object is shared by reference with the
shader material, so this field IS the material's time uniform.) -/
structure FireFliesState where
  uTime : ℝ
  uFireFlyRadius : ℝ
  uColor : V3
  uNoiseTexture : Option ℕ
  matrices : List (ℕ × V3)

/-- `FireFlies.update()` (FireFly.ts lines 175-177):
`this.Uniforms.uTime.value += this.gl.delta`.  The per-frame delta read from
the engine context is the function's input; nothing else is touched. -/
noncomputable def update (delta : ℝ) (s : FireFliesState) : FireFliesState :=
  ⟨s.uTime + delta, s.uFireFlyRadius, s.uColor, s.uNoiseTexture, s.matrices⟩

/-- A sequence of `update` calls with the given per-frame deltas, in order. -/
noncomputable def updateRun (ds : List ℝ) (s : FireFliesState) : FireFliesState :=
  ds.foldl (fun acc d => update d acc) s

/-- The uniform state right after construction (FireFly.ts lines 37-43):
`uTime = 0`, `uFireFlyRadius = 0.1`, `uColor = #ffffff = (1,1,1)`, a default
noise texture, and no transform writes recorded yet. -/
noncomputable def initState : FireFliesState := ⟨0, 0.1, ⟨1, 1, 1⟩, none, []⟩

/-- `this.fireflyCount = this.groupCount * this.firefliesPerGroup`
(FireFly.ts line 128), the instance count passed to `InstancedMesh`. -/
def fireflyCount (groupCount firefliesPerGroup : ℕ) : ℕ :=
  groupCount * firefliesPerGroup

/-- `FireFlies.setInitialPositions(groupCount, firefliesPerGroup)`
(FireFly.ts lines 142-172): the sequence of `setMatrixAt(index, matrix)`
writes, in execution order.  `draws` is the stream of `randomGaussian()`
results, consumed three per particle in x, y, z order; particle `(i, j)` is
the `i * firefliesPerGroup + j`-th iteration, so it consumes draws
`3*index`, `3*index+1`, `3*index+2`.  Each write stores the translation
`groupCenter + offset` with `groupCenter = (0,0,0)` and
`offset = (draw * groupRadius, draw * groupRadius, draw * groupRadius)`
(independent draws per axis). -/
noncomputable def setInitialPositions (groupCount firefliesPerGroup : ℕ)
    (groupRadius : ℝ) (draws : ℕ → ℝ) : List (ℕ × V3) :=
  (List.range groupCount).flatMap fun i =>
    (List.range firefliesPerGroup).map fun j =>
      let index := i * firefliesPerGroup + j
      let groupCenter : V3 := ⟨0, 0, 0⟩
      let offset : V3 :=
        ⟨draws (3 * index) * groupRadius,
         draws (3 * index + 1) * groupRadius,
         draws (3 * index + 2) * groupRadius⟩
      (index, groupCenter.add offset)

/-- The index map of the placement loop, `index = i * firefliesPerGroup + j`
(FireFly.ts line 166), as a function from group/particle pairs into
`[0, fireflyCount)`. -/
def indexMap (groupCount firefliesPerGroup : ℕ)
    (q : Fin groupCount × Fin firefliesPerGroup) :
    Fin (fireflyCount groupCount firefliesPerGroup) :=
  ⟨q.1.1 * firefliesPerGroup + q.2.1, by
    obtain ⟨⟨i, hi⟩, ⟨j, hj⟩⟩ := q
    calc i * firefliesPerGroup + j < i * firefliesPerGroup + firefliesPerGroup :=
          Nat.add_lt_add_left hj _
      _ = (i + 1) * firefliesPerGroup := by ring
      _ ≤ groupCount * firefliesPerGroup := Nat.mul_le_mul_right _ hi
      _ = fireflyCount groupCount firefliesPerGroup := rfl⟩

/-! ## Construction configuration defaulting -/

/-- The construction configuration object as passed by a caller: a JS object
whose fields may each be present or absent (`none` = the field is missing /
`undefined`).  Mirrors `type Props` of FireFly.ts lines 19-24. -/
structure Props where
  groupCount : Option ℚ
  firefliesPerGroup : Option ℚ
  groupRadius : Option ℚ
  noiseTexture : Option ℕ

/-- `defaultProps` (FireFly.ts lines 26-31): all fields present,
`groupCount = 1`, `firefliesPerGroup = 50`, `groupRadius = 5`,
`noiseTexture = null`. -/
def defaultProps : Props := ⟨some 1, some 50, some 5, none⟩

/-- The field values a constructed instance ends up with: the three numeric
fields read off the props object (`undefined` when absent there), and the
noise-texture uniform slot. -/
structure CtorFields where
  groupCount : Option ℚ
  firefliesPerGroup : Option ℚ
  groupRadius : Option ℚ
  uNoiseTexture : Option ℕ

/-- The constructor's field assignments (FireFly.ts lines 48-55) applied to
one props object: `this.groupCount = props.groupCount` etc. read whatever the
object holds (absent fields read as `undefined`), and
`if (props.noiseTexture) { this.Uniforms.uNoiseTexture.value = props.noiseTexture }`
overrides the default texture only when the field is present. -/
def applyProps (props : Props) : CtorFields :=
  ⟨props.groupCount, props.firefliesPerGroup, props.groupRadius,
    match props.noiseTexture with
    | some t => some t
    | none => none⟩

/-- `constructor(_scene, props: Props = defaultProps)` (FireFly.ts line 48):
the default-parameter substitution applies `defaultProps` only when the
props argument is omitted altogether (`none`); a supplied object is used
as-is, its absent fields staying absent. -/
def constructorFields : Option Props → CtorFields
  | none => applyProps defaultProps
  | some props => applyProps props

/-! ## randomGaussian -/

/-- One resampling loop of `FireFlies.randomGaussian` (FireFly.ts lines
205-206): starting from value 0, `while (u === 0) u = Math.random()` keeps
drawing from the stream until a nonzero value appears.  `fuel` bounds the
number of draws (JS would loop forever on an all-zero stream); the result is
the accepted value and the index of the next unconsumed draw. -/
def drawLoop : ℕ → (ℕ → ℚ) → ℕ → Option (ℚ × ℕ)
  | 0, _, _ => none
  | fuel + 1, stream, idx =>
      if stream idx = 0 then drawLoop fuel stream (idx + 1)
      else some (stream idx, idx + 1)

/-- `FireFlies.randomGaussian()` (FireFly.ts lines 202-209): draw `u`, then
`v`, each through the resampling loop, and return
`sqrt(-2 * log u) * cos(2 * π * v)` (the Box-Muller transform). -/
noncomputable def randomGaussian (stream : ℕ → ℚ) (fuel : ℕ) : Option ℝ :=
  match drawLoop fuel stream 0 with
  | none => none
  | some (u, idx) =>
      match drawLoop fuel stream idx with
      | none => none
      | some (v, _) =>
          some (Real.sqrt (-2 * Real.log (u : ℝ)) * Real.cos (2 * Real.pi * (v : ℝ)))

/-! ## Helper lemmas -/

/-- The nested placement loops enumerate exactly the indices `0, ..., g*p - 1`,
in order. -/
theorem flatMap_range_index (g p : ℕ) :
    ((List.range g).flatMap fun i => (List.range p).map fun j => i * p + j) =
      List.range (g * p) := by
  induction g with
  | zero => simp
  | succ n ih =>
      rw [List.range_succ, List.flatMap_append, ih, Nat.succ_mul, List.range_add]
      simp

/-- The indices written by `setInitialPositions` are `0, ..., g*p - 1` in order. -/
theorem setInitialPositions_indices (g p : ℕ) (groupRadius : ℝ) (draws : ℕ → ℝ) :
    (setInitialPositions g p groupRadius draws).map Prod.fst = List.range (g * p) := by
  unfold setInitialPositions
  rw [List.map_flatMap, ← flatMap_range_index g p]
  simp [Function.comp_def]

/-- The accumulated clock after a run of `update` calls adds the sum of the
deltas to the starting clock value. -/
theorem updateRun_uTime (ds : List ℝ) :
    ∀ s : FireFliesState, (updateRun ds s).uTime = s.uTime + ds.sum := by
  induction ds with
  | nil => intro s; simp [updateRun]
  | cons d ds ih =>
      intro s
      have hstep : updateRun (d :: ds) s = updateRun ds (update d s) := rfl
      rw [hstep, ih, List.sum_cons]
      show s.uTime + d + ds.sum = s.uTime + (d + ds.sum)
      ring

/-! ## Claims -/

/-- Claim C1: for every `groupCount ≥ 1` and `firefliesPerGroup ≥ 1`, the
instance count of the constructed pool is their product, the placement loop
writes a transform to every instance index in `[0, total)` exactly once, and
the index map `i * firefliesPerGroup + j` is a bijection from group/particle
pairs onto `[0, total)`. -/
theorem construction_pool_and_placement (g p : ℕ) (_hg : 1 ≤ g) (hp : 1 ≤ p)
    (groupRadius : ℝ) (draws : ℕ → ℝ) :
    fireflyCount g p = g * p ∧
    (∀ k, k < fireflyCount g p →
      ((setInitialPositions g p groupRadius draws).map Prod.fst).count k = 1) ∧
    Function.Bijective (indexMap g p) := by
  refine ⟨rfl, ?_, ?_, ?_⟩
  · intro k hk
    rw [setInitialPositions_indices]
    exact List.count_eq_one_of_mem (List.nodup_range _) (List.mem_range.mpr hk)
  · rintro ⟨⟨i1, hi1⟩, ⟨j1, hj1⟩⟩ ⟨⟨i2, hi2⟩, ⟨j2, hj2⟩⟩ h
    simp only [indexMap, Fin.mk.injEq] at h
    have e1 : (i1 * p + j1) % p = j1 := by
      rw [Nat.add_comm, Nat.add_mul_mod_self_right, Nat.mod_eq_of_lt hj1]
    have e2 : (i2 * p + j2) % p = j2 := by
      rw [Nat.add_comm, Nat.add_mul_mod_self_right, Nat.mod_eq_of_lt hj2]
    have hj : j1 = j2 := by rw [← e1, ← e2, h]
    have hi : i1 = i2 := by
      have hmul : i1 * p = i2 * p := by omega
      exact Nat.eq_of_mul_eq_mul_right (by omega) hmul
    simp only [Prod.mk.injEq, Fin.mk.injEq]
    exact ⟨hi, hj⟩
  · rintro ⟨k, hk⟩
    have hp0 : 0 < p := hp
    have hk' : k < g * p := hk
    refine ⟨⟨⟨k / p, ?_⟩, ⟨k % p, Nat.mod_lt _ hp0⟩⟩, ?_⟩
    · exact (Nat.div_lt_iff_lt_mul hp0).mpr hk'
    · apply Fin.ext
      show k / p * p + k % p = k
      rw [Nat.mul_comm]
      exact Nat.div_add_mod k p

/-- Claim C1 witness: at `groupCount = 2`, `firefliesPerGroup = 3`. -/
theorem construction_pool_and_placement_witness :
    (1 ≤ 2 ∧ 1 ≤ 3) ∧
    (fireflyCount 2 3 = 2 * 3 ∧
     (∀ k, k < fireflyCount 2 3 →
       ((setInitialPositions 2 3 1 (fun _ => 0)).map Prod.fst).count k = 1) ∧
     Function.Bijective (indexMap 2 3)) :=
  ⟨⟨by decide, by decide⟩,
   construction_pool_and_placement 2 3 (by decide) (by decide) 1 (fun _ => 0)⟩

/-- Claim C2: starting from clock value 0, a run of `update` calls with
deltas `d1..dN` leaves the time uniform at `d1 + ... + dN`; each single call
writes the new accumulated value (old clock plus this frame's delta) into the
shared time uniform; and the resulting clock depends only on the sum of the
deltas, not on how the total is partitioned into calls. -/
theorem update_accumulates (ds : List ℝ) (s : FireFliesState) (h0 : s.uTime = 0) :
    (updateRun ds s).uTime = ds.sum ∧
    (∀ t : FireFliesState, ∀ d : ℝ, (update d t).uTime = t.uTime + d) ∧
    (∀ es : List ℝ, es.sum = ds.sum →
      (updateRun es s).uTime = (updateRun ds s).uTime) := by
  refine ⟨?_, fun t d => rfl, ?_⟩
  · rw [updateRun_uTime, h0, zero_add]
  · intro es he
    rw [updateRun_uTime, updateRun_uTime, he]

/-- Claim C2 witness: one call of 1.0 from the freshly constructed state,
and the same result from two calls of 0.5. -/
theorem update_accumulates_witness :
    initState.uTime = 0 ∧
    (updateRun [(1 : ℝ)] initState).uTime = [(1 : ℝ)].sum ∧
    (updateRun [(0.5 : ℝ), 0.5] initState).uTime = (updateRun [(1 : ℝ)] initState).uTime := by
  have h := update_accumulates [(1 : ℝ)] initState rfl
  exact ⟨rfl, h.1, h.2.2 [0.5, 0.5] (by norm_num)⟩

/-- Claim C7: with `groupCount = 1`, `firefliesPerGroup = 1`,
`groupRadius = 0`, exactly one instance is created, and the single placement
write stores the group center `(0,0,0)` whatever the Gaussian draws are,
because each axis offset is a draw scaled by the radius 0. -/
theorem single_particle_at_center (draws : ℕ → ℝ) :
    fireflyCount 1 1 = 1 ∧
    setInitialPositions 1 1 0 draws = [(0, ⟨0, 0, 0⟩)] := by
  refine ⟨rfl, ?_⟩
  simp [setInitialPositions, V3.add, show List.range 1 = [0] from rfl]

/-- Claim C8: `setColor(c)` followed by a read of the color uniform returns
exactly `c`, componentwise, with no transformation applied. -/
theorem setColor_roundtrip (s : FireFlyMaterialState) (c : V3) :
    (setColor c s).uColor = c ∧
    (setColor c s).uColor.x = c.x ∧
    (setColor c s).uColor.y = c.y ∧
    (setColor c s).uColor.z = c.z :=
  ⟨rfl, rfl, rfl, rfl⟩

/-- Claim C9: a per-frame `update` call changes only the animation clock /
time uniform: the recorded placement transforms, the radius uniform, the
color uniform and the noise-texture uniform are all unchanged, and the clock
is advanced by the frame delta. -/
theorem update_frame_effect (s : FireFliesState) (delta : ℝ) :
    (update delta s).matrices = s.matrices ∧
    (update delta s).uFireFlyRadius = s.uFireFlyRadius ∧
    (update delta s).uColor = s.uColor ∧
    (update delta s).uNoiseTexture = s.uNoiseTexture ∧
    (update delta s).uTime = s.uTime + delta :=
  ⟨rfl, rfl, rfl, rfl, rfl⟩

/-- Claim C10: the glow term's smoothstep `smoothstep(0.50, r, distance)` has
distinct edges — equivalently a nonzero interpolation divisor `r - 0.5` —
exactly when `r ≠ 0.5`; the radius setter stores any value unvalidated
(in particular it accepts `r = 0.5`); and the disk term's smoothstep
`smoothstep(r, r - 0.01, distance)` has distinct edges (divisor `-0.01`)
for every `r`. -/
theorem radius_setter_and_smoothstep_edges (r : ℝ) (s : FireFlyMaterialState) :
    (((0.50 : ℝ) ≠ r ∧ smoothstepDivisor 0.50 r ≠ 0) ↔ r ≠ 0.5) ∧
    (setFireFlyRadius r s).uFireFlyRadius = r ∧
    (r ≠ r - 0.01 ∧ smoothstepDivisor r (r - 0.01) ≠ 0) := by
  have h05 : (0.50 : ℝ) = 0.5 := by norm_num
  refine ⟨?_, rfl, ?_, ?_⟩
  · show ((0.50 : ℝ) ≠ r ∧ r - 0.50 ≠ 0) ↔ r ≠ 0.5
    rw [h05]
    constructor
    · rintro ⟨h1, -⟩
      exact Ne.symm h1
    · intro h
      exact ⟨Ne.symm h, sub_ne_zero_of_ne h⟩
  · intro he
    have h0 : (0 : ℝ) = -0.01 := by linarith
    norm_num at h0
  · show r - 0.01 - r ≠ 0
    intro he
    norm_num at he

/-- Claim C3 counterexample: supplying a configuration object holding only
`groupCount` does NOT give `firefliesPerGroup` its default 50 — the default
parameter `props = defaultProps` substitutes the defaults only when the whole
object is omitted, so the missing field stays absent (`undefined`). -/
theorem props_partial_default_counterexample :
    (constructorFields (some ⟨some 3, none, none, none⟩)).firefliesPerGroup ≠ some 50 := by
  simp [constructorFields, applyProps]

/-- Claim C3 amended: the stated defaults (`groupCount = 1`,
`firefliesPerGroup = 50`, `groupRadius = 5`, no noise texture) apply exactly
when the entire configuration object is omitted; when an object is supplied,
every field is read as-is from it — a field absent from the supplied object
stays absent instead of taking its default (only the noise texture degrades
gracefully, its absence leaving the default texture in place). -/
theorem props_whole_object_default :
    constructorFields none = ⟨some 1, some 50, some 5, none⟩ ∧
    ∀ props : Props,
      (constructorFields (some props)).groupCount = props.groupCount ∧
      (constructorFields (some props)).firefliesPerGroup = props.firefliesPerGroup ∧
      (constructorFields (some props)).groupRadius = props.groupRadius ∧
      (constructorFields (some props)).uNoiseTexture = props.noiseTexture := by
  refine ⟨rfl, fun props => ⟨rfl, rfl, rfl, ?_⟩⟩
  cases h : props.noiseTexture <;> simp [constructorFields, applyProps, h]

/-- Claim C4: for every UV in the unit square, and all radius, color, time
and instance-index values, the fragment computation of the shader source
equals exactly the specification's formulas: Euclidean center distance, the
two smoothstep terms, flash `0.5 + 0.5*sin(3t + 0.12k)`, clamped alpha
`(glow + disk)*flash`, and `mix(c*3*flash, c*3, disk)` with alpha as the
fourth channel. -/
theorem fragment_matches_spec (uv : ℝ × ℝ) (r t k : ℝ) (c : V3)
    (_hx0 : 0 ≤ uv.1) (_hx1 : uv.1 ≤ 1) (_hy0 : 0 ≤ uv.2) (_hy1 : uv.2 ≤ 1) :
    fragmentShaderCode uv r t c k = fragmentShaderSpec uv r t c k := by
  unfold fragmentShaderCode fragmentShaderSpec glslLength
  have harg : t * 3 + k * 0.12 = 3 * t + 0.12 * k := by ring
  rw [harg]
  have hflash : Real.sin (3 * t + 0.12 * k) * 0.5 + 0.5
      = 0.5 + 0.5 * Real.sin (3 * t + 0.12 * k) := by ring
  rw [hflash]

/-- Claim C4 witness: at the quad center with the default radius and white
color at time 0 for instance 0. -/
theorem fragment_matches_spec_witness :
    ((0 : ℝ) ≤ (0.5 : ℝ) ∧ (0.5 : ℝ) ≤ 1) ∧
    fragmentShaderCode (0.5, 0.5) 0.1 0 ⟨1, 1, 1⟩ 0
      = fragmentShaderSpec (0.5, 0.5) 0.1 0 ⟨1, 1, 1⟩ 0 :=
  ⟨⟨by norm_num, by norm_num⟩,
   fragment_matches_spec (0.5, 0.5) 0.1 0 0 ⟨1, 1, 1⟩
     (by norm_num) (by norm_num) (by norm_num) (by norm_num)⟩

/-- Claim C5 counterexample: at `r = 1/200` (which satisfies the claim's
condition `r - 0.01 < 0 < r`), the core term at the quad center is
`smoothstep(1/200, 1/200 - 0.01, 0) = 1/2`, not 1: the interpolant is
`t = clamp((0 - r)/(-0.01), 0, 1) = 1/2 < 1`, so the center is inside the
falloff band, not fully inside the core. -/
theorem disk_center_counterexample :
    ((1 : ℝ)/200) - 0.01 < 0 ∧ (0 : ℝ) < 1/200 ∧
    smoothstep ((1 : ℝ)/200) ((1 : ℝ)/200 - 0.01) 0 ≠ 1 := by
  refine ⟨by norm_num, by norm_num, ?_⟩
  unfold smoothstep glslClamp smoothstepDivisor
  norm_num

/-- Claim C5 amended: at `distance = 0` (quad center), the core term
`disk = smoothstep(r, r - 0.01, 0)` — with `r` as the "0" edge and
`r - 0.01` as the "1" edge of the reversed smoothstep — evaluates to 1
whenever `r ≥ 0.01` (i.e. when `0 ≤ r - 0.01`, so the center is at or past
the "1" edge); for `0 < r < 0.01` the center lies inside the falloff band
and the value is strictly below 1. -/
theorem disk_center_full (r : ℝ) (h : 0.01 ≤ r) :
    smoothstep r (r - 0.01) 0 = 1 := by
  unfold smoothstep glslClamp smoothstepDivisor
  have hdiv : (0 - r) / (r - 0.01 - r) = 100 * r := by
    rw [show r - 0.01 - r = -0.01 by ring]
    ring
  rw [hdiv]
  have h1 : (1 : ℝ) ≤ 100 * r := by linarith
  rw [max_eq_left (by linarith), min_eq_right h1]
  norm_num

/-- Claim C5 witness: at the default radius `r = 0.1`. -/
theorem disk_center_full_witness :
    (0.01 : ℝ) ≤ 0.1 ∧ smoothstep (0.1 : ℝ) (0.1 - 0.01) 0 = 1 :=
  ⟨by norm_num, disk_center_full 0.1 (by norm_num)⟩

/-- Whenever a resampling loop of `randomGaussian` terminates on a stream of
`Math.random()` outputs in `[0,1)`, the accepted value is strictly between
0 and 1. -/
theorem drawLoop_mem_Ioo (stream : ℕ → ℚ) (hb : ∀ n, 0 ≤ stream n ∧ stream n < 1) :
    ∀ fuel idx u next, drawLoop fuel stream idx = some (u, next) → 0 < u ∧ u < 1 := by
  intro fuel
  induction fuel with
  | zero => intro idx u next h; simp [drawLoop] at h
  | succ n ih =>
      intro idx u next h
      by_cases hx : stream idx = 0
      · rw [drawLoop, if_pos hx] at h
        exact ih _ _ _ h
      · rw [drawLoop, if_neg hx] at h
        simp only [Option.some.injEq, Prod.mk.injEq] at h
        obtain ⟨hu, -⟩ := h
        subst hu
        exact ⟨lt_of_le_of_ne (hb idx).1 (Ne.symm hx), (hb idx).2⟩

/-- Claim C6: for every stream of RNG outputs in `[0,1)`, whenever
`randomGaussian` terminates, its two uniform draws `u` and `v` are strictly
inside `(0,1)`: the logarithm argument is nonzero, the square root argument
`-2*ln(u)` is non-negative, and the returned sample is the Box-Muller value
of those draws — so the log-of-zero branch is unreachable. -/
theorem randomGaussian_draws_safe (stream : ℕ → ℚ) (fuel : ℕ) (num : ℝ)
    (hb : ∀ n, 0 ≤ stream n ∧ stream n < 1)
    (h : randomGaussian stream fuel = some num) :
    ∃ u v : ℚ, ∃ n1 n2 : ℕ,
      drawLoop fuel stream 0 = some (u, n1) ∧
      drawLoop fuel stream n1 = some (v, n2) ∧
      0 < u ∧ u < 1 ∧ 0 < v ∧ v < 1 ∧
      0 ≤ -2 * Real.log (u : ℝ) ∧
      num = Real.sqrt (-2 * Real.log (u : ℝ)) * Real.cos (2 * Real.pi * (v : ℝ)) := by
  unfold randomGaussian at h
  split at h
  · exact Option.noConfusion h
  · rename_i u n1 h1
    split at h
    · exact Option.noConfusion h
    · rename_i v n2 h2
      simp only [Option.some.injEq] at h
      obtain ⟨hu0, hu1⟩ := drawLoop_mem_Ioo stream hb fuel 0 u n1 h1
      obtain ⟨hv0, hv1⟩ := drawLoop_mem_Ioo stream hb fuel n1 v n2 h2
      have hur : (0 : ℝ) < (u : ℝ) := by exact_mod_cast hu0
      have hur1 : (u : ℝ) ≤ 1 := by exact_mod_cast le_of_lt hu1
      have hlog : Real.log (u : ℝ) ≤ 0 := Real.log_nonpos (le_of_lt hur) hur1
      exact ⟨u, v, n1, n2, h1, h2, hu0, hu1, hv0, hv1, by linarith, h.symm⟩

/-- Claim C6 witness: the constant stream `1/2` with fuel 2 terminates and
the theorem's conclusion holds there. -/
theorem randomGaussian_draws_safe_witness :
    (∀ n : ℕ, 0 ≤ (fun _ : ℕ => (1 : ℚ)/2) n ∧ (fun _ : ℕ => (1 : ℚ)/2) n < 1) ∧
    randomGaussian (fun _ => (1 : ℚ)/2) 2
      = some (Real.sqrt (-2 * Real.log (((1 : ℚ)/2 : ℚ) : ℝ))
              * Real.cos (2 * Real.pi * (((1 : ℚ)/2 : ℚ) : ℝ))) ∧
    (∃ u v : ℚ, ∃ n1 n2 : ℕ,
      drawLoop 2 (fun _ => (1 : ℚ)/2) 0 = some (u, n1) ∧
      drawLoop 2 (fun _ => (1 : ℚ)/2) n1 = some (v, n2) ∧
      0 < u ∧ u < 1 ∧ 0 < v ∧ v < 1 ∧
      0 ≤ -2 * Real.log (u : ℝ) ∧
      Real.sqrt (-2 * Real.log (((1 : ℚ)/2 : ℚ) : ℝ))
          * Real.cos (2 * Real.pi * (((1 : ℚ)/2 : ℚ) : ℝ))
        = Real.sqrt (-2 * Real.log (u : ℝ)) * Real.cos (2 * Real.pi * (v : ℝ))) := by
  have hb : ∀ n : ℕ, 0 ≤ (fun _ : ℕ => (1 : ℚ)/2) n ∧ (fun _ : ℕ => (1 : ℚ)/2) n < 1 :=
    fun n => ⟨by norm_num, by norm_num⟩
  have hcomp : randomGaussian (fun _ => (1 : ℚ)/2) 2
      = some (Real.sqrt (-2 * Real.log (((1 : ℚ)/2 : ℚ) : ℝ))
              * Real.cos (2 * Real.pi * (((1 : ℚ)/2 : ℚ) : ℝ))) := by
    have hdl : drawLoop 2 (fun _ => (1 : ℚ)/2) 0 = some ((1 : ℚ)/2, 1) := by
      rw [drawLoop, if_neg (by norm_num)]
    have hdl2 : drawLoop 2 (fun _ => (1 : ℚ)/2) 1 = some ((1 : ℚ)/2, 2) := by
      rw [drawLoop, if_neg (by norm_num)]
    simp only [randomGaussian, hdl, hdl2]
  exact ⟨hb, hcomp, randomGaussian_draws_safe (fun _ => (1 : ℚ)/2) 2 _ hb hcomp⟩

end ThreeFireflies
